import Mathlib

/-!
Verification of the message-relay pipeline of this repository against its
natural-language specification.  The JavaScript sources are shallowly
embedded: JS `Map`s become association lists in insertion order, `Date.now()`
becomes an explicit `Nat` argument at each call site where the source calls
it, exceptions become `Except`, and network calls are driven by explicit
outcome oracles.  All definitions are executable.
-/

deriving instance DecidableEq for Except

namespace Relay

/-! ### Association-list model of a JS `Map` (insertion order preserved).
`alookup` is `Map.get`/`Map.has`, `aset` is `Map.set` (replace in place or
append), `adelete` is `Map.delete` (keys are unique in a JS `Map`, so
removing the first occurrence removes the entry). -/

def alookup {κ α : Type} [DecidableEq κ] : List (κ × α) → κ → Option α
  | [], _ => none
  | (k, v) :: rest, key => if k = key then some v else alookup rest key

def aset {κ α : Type} [DecidableEq κ] : List (κ × α) → κ → α → List (κ × α)
  | [], key, v => [(key, v)]
  | (k, w) :: rest, key, v =>
    if k = key then (k, v) :: rest else (k, w) :: aset rest key v

def adelete {κ α : Type} [DecidableEq κ] : List (κ × α) → κ → List (κ × α)
  | [], _ => []
  | (k, v) :: rest, key => if k = key then rest else (k, v) :: adelete rest key

/-! ### RateLimiter (src/api/webhook.js lines 14-43)

`windowSize = 60 * 1000`, `maxRequests = 20` are set in the constructor.
The per-user state is `this.requests : Map<string, number[]>`; an absent key
behaves as the empty list (the source inserts `[]` before reading).
`isAllowed` models the method: `userId` is `none` when the caller had no
`message.from?.id`, and the JS falsy check `!userId` also rejects the
number 0. -/

def rlWindowSize : Nat := 60 * 1000

def rlMaxRequests : Nat := 20

abbrev RateMap := List (String × List Nat)

def isAllowed (m : RateMap) (userId : Option Nat) (now : Nat) : Bool × RateMap :=
  match userId with
  | none => (false, m)
  | some uid =>
    if uid = 0 then (false, m)
    else
      let userKey := toString uid
      let userRequests := (alookup m userKey).getD []
      -- `now - timestamp < windowSize`; with Nat subtraction a timestamp in
      -- the future gives 0 < windowSize, exactly as the JS negative value
      -- compares below windowSize.
      let validRequests := userRequests.filter (fun timestamp => now - timestamp < rlWindowSize)
      if rlMaxRequests ≤ validRequests.length then
        (false, aset m userKey validRequests)
      else
        (true, aset m userKey (validRequests ++ [now]))

/-- Iterate `isAllowed` for one user at the given sequence of call instants,
collecting the returned booleans and the final map. -/
def runCalls (m : RateMap) (uid : Nat) (ts : List Nat) : List Bool × RateMap :=
  match ts with
  | [] => ([], m)
  | t :: rest =>
    let r := isAllowed m (some uid) t
    let r2 := runCalls r.2 uid rest
    (r.1 :: r2.1, r2.2)

/-! ### SessionManager (src/api/webhook.js lines 45-144)

Sessions live in `this.sessions : Map<string, Session>`; `this.reservations`
is only ever deleted from in this file, so it is a list of keys.  The
constructor sets `maxSessions = 10000` and `sessionTTL = 24h`.  `Date.now()`
is called separately inside `getUserSession` (`now`), inside
`evictOldestSession` (`nowE`) and inside `updateUserSession` (`nowU`); each
is threaded as an argument. -/

structure Session where
  userId : Nat
  conversationId : String
  createdAt : Nat
  lastAccessed : Nat
  requestCount : Nat
  reservationState : Option String
  deriving Repr, DecidableEq

structure SessionManager where
  sessions : List (String × Session)
  reservations : List String
  maxSessions : Nat
  sessionTTL : Nat
  deriving Repr, DecidableEq

def mkSessionManager : SessionManager :=
  { sessions := [], reservations := [], maxSessions := 10000,
    sessionTTL := 24 * 60 * 60 * 1000 }

/-- The `for (const [key, session] of this.sessions)` scan of
`evictOldestSession`: `oldestTime` starts at `Date.now()` and an entry is
selected only when its `lastAccessed` is strictly smaller than the current
minimum. -/
def oldestScan (nowE : Nat) (l : List (String × Session)) : Option String × Nat :=
  l.foldl
    (fun acc kv =>
      if kv.2.lastAccessed < acc.2 then (some kv.1, kv.2.lastAccessed) else acc)
    (none, nowE)

def evictOldestSession (m : SessionManager) (nowE : Nat) : SessionManager :=
  match (oldestScan nowE m.sessions).1 with
  | some oldestKey =>
    { m with sessions := adelete m.sessions oldestKey,
             reservations := m.reservations.erase oldestKey }
  | none => m

/-- The tail of `getUserSession` after the cache miss (or after deleting a
TTL-expired entry): build `newSession`, evict if at capacity, store it. -/
def createSession (m : SessionManager) (userId : Nat) (now nowE : Nat) :
    Session × SessionManager :=
  let sessionKey := toString userId
  let newSession : Session :=
    { userId := userId, conversationId := "", createdAt := now,
      lastAccessed := now, requestCount := 0, reservationState := none }
  let m2 := if m.maxSessions ≤ m.sessions.length then evictOldestSession m nowE else m
  (newSession, { m2 with sessions := aset m2.sessions sessionKey newSession })

/-- `getUserSession(userId)`: throws on a falsy/non-numeric id (`userId` is a
`Nat` here, so only the falsy value 0 remains to reject); on a hit whose age
exceeds the TTL the entry is deleted and a fresh session created; otherwise
`lastAccessed` is refreshed in place. -/
def getUserSession (m : SessionManager) (userId : Nat) (now nowE : Nat) :
    Except String (Session × SessionManager) :=
  if userId = 0 then .error "Invalid userId provided"
  else
    let sessionKey := toString userId
    match alookup m.sessions sessionKey with
    | some session =>
      if m.sessionTTL < now - session.createdAt then
        .ok (createSession
          { m with sessions := adelete m.sessions sessionKey,
                   reservations := m.reservations.erase sessionKey }
          userId now nowE)
      else
        let s2 := { session with lastAccessed := now }
        .ok (s2, { m with sessions := aset m.sessions sessionKey s2 })
    | none => .ok (createSession m userId now nowE)

/-- JS `x || ''` on a string value. -/
def jsOrEmpty (s : String) : String := if s = "" then "" else s

/-- `updateUserSession(userId, conversationId)`: fetches (and possibly
creates) the session via `getUserSession`, then assigns
`conversationId || ''`, refreshes `lastAccessed` and bumps `requestCount`.
The mutated object is the one stored in the map. -/
def updateUserSession (m : SessionManager) (userId : Nat) (conversationId : String)
    (now nowE nowU : Nat) : SessionManager :=
  if userId = 0 then m
  else
    match getUserSession m userId now nowE with
    | .error _ => m
    | .ok (session, m1) =>
      let s2 := { session with
        conversationId := jsOrEmpty conversationId,
        lastAccessed := nowU,
        requestCount := session.requestCount + 1 }
      { m1 with sessions := aset m1.sessions (toString userId) s2 }

end Relay

namespace Part0

/-! ### The debug variant (src/unnamed/part_000)

`sessions` is a bare module-level `Map`; `getSession` refreshes
`lastAccess` and performs a crude size cap, `updateSession` is guarded:
`if (!key || !conversationId) return;` — an empty conversation id is a
no-op on the store. -/

structure P0Session where
  conversationId : String
  lastAccess : Nat
  deriving Repr, DecidableEq

abbrev P0Store := List (String × P0Session)

/-- `getSession(userId)` of part_000 (lines 16-34): returns the (possibly
fresh) session and the updated store.  `userId?.toString()` is `none` when
`userId` is absent. -/
def getSession (store : P0Store) (userId : Option Nat) (now : Nat) :
    P0Session × P0Store :=
  match userId with
  | none => ({ conversationId := "", lastAccess := 0 }, store)
  | some uid =>
    let key := toString uid
    let store1 :=
      match Relay.alookup store key with
      | some _ => store
      | none => Relay.aset store key { conversationId := "", lastAccess := now }
    let session := (Relay.alookup store1 key).getD { conversationId := "", lastAccess := now }
    let s2 := { session with lastAccess := now }
    let store2 := Relay.aset store1 key s2
    -- `if (sessions.size > 1000) delete first key` — crude cleanup
    let store3 :=
      if 1000 < store2.length then
        match store2 with
        | [] => store2
        | (k, _) :: _ => Relay.adelete store2 k
      else store2
    (s2, store3)

/-- `updateSession(userId, conversationId)` of part_000 (lines 37-44):
returns the store unchanged when the key is absent or the conversation id
is empty, otherwise writes the id through `getSession`'s session. -/
def updateSession (store : P0Store) (userId : Option Nat) (conversationId : String)
    (now : Nat) : P0Store :=
  match userId with
  | none => store
  | some uid =>
    if conversationId = "" then store
    else
      let r := getSession store (some uid) now
      Relay.aset r.2 (toString uid) { r.1 with conversationId := conversationId }

end Part0

namespace Relay

/-! ### AI-backend call (Dify)

A single network attempt is abstracted as an outcome chosen by an oracle:
the `fetch` either aborts (timeout fired), returns a non-ok HTTP status, or
returns parsed JSON data `{answer, conversation_id}`. -/

structure DifyData where
  answer : String
  conversation_id : String
  deriving Repr, DecidableEq

inductive FetchOutcome where
  | abort
  | httpErr (status : Nat)
  | ok (data : DifyData)
  deriving Repr, DecidableEq

/-- One attempt of the operation passed to `retryOperation` in
`getDifyResponse` (src/api/webhook.js lines 412-454): an abort or a non-ok
status throws, an ok response yields the data. -/
def difyAttempt (outcome : FetchOutcome) : Except String DifyData :=
  match outcome with
  | .abort => .error "AbortError"
  | .httpErr status => .error ("Dify API error: " ++ toString status)
  | .ok data => .ok data

/-- `retryOperation(operation, maxAttempts)` (src/api/webhook.js lines
377-389): attempts are numbered 1..maxAttempts; an error rethrows only on
the last attempt.  The oracle supplies one outcome per attempt. -/
def retryDify (maxAttempts : Nat) (outcomes : List FetchOutcome) : Except String DifyData :=
  match maxAttempts, outcomes with
  | 0, _ => .error "no attempts"
  | _ + 1, [] => .error "AbortError"
  | n + 1, o :: rest =>
    match difyAttempt o with
    | .ok data => .ok data
    | .error e => if n = 0 then .error e else retryDify n rest

structure DifyConfig where
  apiUrl : Option String
  apiToken : Option String
  deriving Repr, DecidableEq

/-- `getDifyResponse(userMessage, userName, conversationId)` of
src/api/webhook.js lines 392-455: missing configuration or an invalid
message throws; an over-long message is truncated; the fetch is wrapped in
`retryOperation` with `RETRY_ATTEMPTS = 2`.  There is no branch that turns
a timeout into a synthetic answer: the last attempt's error propagates. -/
def getDifyResponse (cfg : DifyConfig) (outcomes : List FetchOutcome)
    (userMessage : String) : Except String DifyData :=
  match cfg.apiUrl, cfg.apiToken with
  | some _, some _ =>
    if userMessage = "" then .error "Invalid user message"
    else retryDify 2 outcomes
  | _, _ => .error "Dify API configuration missing"

end Relay

namespace Part2

/-! ### The queue-based variant (src/unnamed/part_002)

`callDifyAPI` (lines 221-265) catches the `AbortError` of its own timeout
and returns a synthetic answer carrying the caller's `conversationId`
unchanged; any other error rethrows.  Sessions live in a KV hash keyed by
`userId`: `getSession` returns `conversationId || ''`, `updateSession`
(lines 190-193) is a no-op for an empty id. -/

/-- The synthetic answer produced on timeout. -/
def timeoutAnswer : String :=
  "⏱️ Bu işlem çok uzun sürdü. Lütfen daha kısa bir mesajla tekrar dene."

def callDifyAPI (outcome : Relay.FetchOutcome) (conversationId : String) :
    Except String Relay.DifyData :=
  match outcome with
  | .abort => .ok { answer := timeoutAnswer, conversation_id := conversationId }
  | .httpErr status => .error ("Dify error: " ++ toString status)
  | .ok data => .ok data

abbrev KvSessions := List (Nat × String)

def getSessionKV (store : KvSessions) (userId : Nat) : String :=
  match Relay.alookup store userId with
  | some conversationId => Relay.jsOrEmpty conversationId
  | none => ""

def updateSessionKV (store : KvSessions) (userId : Nat) (conversationId : String) :
    KvSessions :=
  if conversationId = "" then store
  else Relay.aset store userId conversationId

/-- The session-handling slice of `processQueueItem` (lines 383-443): read
the stored conversation id, call Dify, and write the returned
`conversation_id` back when it is non-empty.  Returns the Dify result and
the resulting session store. -/
def processQueueItemSessions (store : KvSessions) (userId : Nat)
    (outcome : Relay.FetchOutcome) : Except String Relay.DifyData × KvSessions :=
  let conversationId := getSessionKV store userId
  match callDifyAPI outcome conversationId with
  | .ok data =>
    (.ok data,
      if data.conversation_id = "" then store
      else updateSessionKV store userId data.conversation_id)
  | .error e => (.error e, store)

end Part2

namespace Relay

/-! ### MessageFormatter (src/api/webhook.js lines 146-352)

The JS regular expressions are embedded as explicit scanners over
`List Char`.  Global (`g`) regexes scan left to right, restart one
character further on a failed match attempt, and continue after the end of
a successful match; each scanner below follows that discipline.  Scanners
whose recursion is not structural take a fuel argument; the wrapper passes
`l.length`, which is always sufficient because every step consumes at
least one character. -/

/-- The character class `\s` of JS regexes (also the set trimmed by
`String.prototype.trim`). -/
def isJsSpace (c : Char) : Bool :=
  let n := c.toNat
  n == 9 || n == 10 || n == 11 || n == 12 || n == 13 || n == 32 ||
  n == 160 || n == 0x1680 || (0x2000 ≤ n && n ≤ 0x200a) ||
  n == 0x2028 || n == 0x2029 || n == 0x202f || n == 0x205f ||
  n == 0x3000 || n == 0xfeff

/-- `String.prototype.trim`. -/
def jsTrim (l : List Char) : List Char :=
  ((l.dropWhile isJsSpace).reverse.dropWhile isJsSpace).reverse

/-- Try to match `/!\[([^\]]*)\]\(([^)]+)\)/` at the head of the input;
returns the url capture (group 2) and the input after the match. -/
def matchMdImage (l : List Char) : Option (List Char × List Char) :=
  match l with
  | '!' :: '[' :: rest =>
    let sp1 := rest.span (fun c => c != ']')
    match sp1.2 with
    | ']' :: '(' :: rest2 =>
      let sp2 := rest2.span (fun c => c != ')')
      match sp2.1, sp2.2 with
      | [], _ => none
      | url, ')' :: rest3 => some (url, rest3)
      | _, _ => none
    | _ => none
  | _ => none

/-- Global scan with `markdownImageRegex`: collects the url captures (the
`exec` loop) and the text with every match removed (the `replace` with
`''`); the source runs both over the same string, so one scan yields
both. -/
def mdImageScanGo : Nat → List Char → List (List Char) × List Char
  | 0, l => ([], l)
  | _ + 1, [] => ([], [])
  | fuel + 1, c :: rest =>
    match matchMdImage (c :: rest) with
    | some (url, rest2) =>
      let r := mdImageScanGo fuel rest2
      (url :: r.1, r.2)
    | none =>
      let r := mdImageScanGo fuel rest
      (r.1, c :: r.2)

def mdImageScan (l : List Char) : List (List Char) × List Char :=
  mdImageScanGo l.length l

/-- A character admitted by `[^\s\n)]` (the body of `urlRegex`). -/
def urlBodyChar (c : Char) : Bool := !isJsSpace c && c != ')'

/-- Try to match `/https?:\/\/[^\s\n)]+/` at the head of the input; returns
the whole match and the input after it. -/
def matchUrl (l : List Char) : Option (List Char × List Char) :=
  match l with
  | 'h' :: 't' :: 't' :: 'p' :: 's' :: ':' :: '/' :: '/' :: r =>
    let sp := r.span urlBodyChar
    match sp.1 with
    | [] => none
    | body => some ('h' :: 't' :: 't' :: 'p' :: 's' :: ':' :: '/' :: '/' :: body, sp.2)
  | 'h' :: 't' :: 't' :: 'p' :: ':' :: '/' :: '/' :: r =>
    let sp := r.span urlBodyChar
    match sp.1 with
    | [] => none
    | body => some ('h' :: 't' :: 't' :: 'p' :: ':' :: '/' :: '/' :: body, sp.2)
  | _ => none

/-- All matches of `urlRegex`, in order (the `exec` loop of
`extractImageUrls`). -/
def urlScanGo : Nat → List Char → List (List Char)
  | 0, _ => []
  | _ + 1, [] => []
  | fuel + 1, c :: rest =>
    match matchUrl (c :: rest) with
    | some (url, rest2) => url :: urlScanGo fuel rest2
    | none => urlScanGo fuel rest

def urlScan (l : List Char) : List (List Char) := urlScanGo l.length l

/-- Case-insensitive character comparison, for the `/i` regex flag. -/
def lowerEq (a b : Char) : Bool := a.toLower == b.toLower

def startsWithCI : List Char → List Char → Bool
  | [], _ => true
  | _ :: _, [] => false
  | p :: ps, c :: cs => lowerEq p c && startsWithCI ps cs

def containsCI (pat : List Char) : List Char → Bool
  | [] => startsWithCI pat []
  | c :: rest => startsWithCI pat (c :: rest) || containsCI pat rest

def noWs (l : List Char) : Bool := l.all (fun c => !isJsSpace c)

/-- Strip a case-insensitive `https?:\/\/` prefix (the anchored scheme part
shared by all `imageUrlPatterns`). -/
def stripScheme (l : List Char) : Option (List Char) :=
  if startsWithCI "https://".data l then some (l.drop 8)
  else if startsWithCI "http://".data l then some (l.drop 7)
  else none

/-- The file-extension alternation `(jpg|jpeg|png|gif|webp|svg)` followed by
the optional query `(\?[^\s]*)?` and the anchor `$` (the input is already
known whitespace-free). -/
def extQTail (l : List Char) : Bool :=
  ["jpg", "jpeg", "png", "gif", "webp", "svg"].any
    (fun e =>
      startsWithCI e.data l &&
      (match l.drop e.data.length with
       | [] => true
       | '?' :: _ => true
       | _ => false))

/-- Existence of a split `[^\s]+ '.' ext ...` — the first argument records
whether at least one character precedes the candidate dot. -/
def dotSplitGo : Bool → List Char → Bool
  | _, [] => false
  | seen, c :: rest => (seen && c == '.' && extQTail rest) || dotSplitGo true rest

/-- Characters admitted by `[a-f0-9-]` under `/i`. -/
def hctiChar (c : Char) : Bool :=
  (('a' ≤ c.toLower && c.toLower ≤ 'f') || ('0' ≤ c && c ≤ '9') || c == '-')

/-- `isImageUrl` (src/api/webhook.js lines 183-199): the input is trimmed,
then tested against the seven anchored case-insensitive patterns. -/
def isImageUrl (text : String) : Bool :=
  if text = "" then false
  else
    let trimmed := jsTrim text.data
    match stripScheme trimmed with
    | none => false
    | some body =>
      -- /^https?:\/\/[^\s]+\.(jpg|jpeg|png|gif|webp|svg)(\?[^\s]*)?$/i
      (noWs body && dotSplitGo false body) ||
      -- /^https?:\/\/imagedelivery\.net[^\s]*$/i
      (startsWithCI "imagedelivery.net".data body && noWs (body.drop 17)) ||
      -- /^https?:\/\/hcti\.io\/v1\/image\/[a-f0-9-]+$/i
      (startsWithCI "hcti.io/v1/image/".data body &&
        !(body.drop 17).isEmpty && (body.drop 17).all hctiChar) ||
      -- /^https?:\/\/[^\s]*cloudinary\.com[^\s]*$/i and the three analogues
      (noWs body && containsCI "cloudinary.com".data body) ||
      (noWs body && containsCI "imgur.com".data body) ||
      (noWs body && containsCI "unsplash.com".data body) ||
      (noWs body && containsCI "pexels.com".data body)

/-- `extractImageUrls` (lines 202-218): every `urlRegex` match that passes
`isImageUrl`. -/
def extractImageUrls (text : String) : List String :=
  if text = "" then []
  else ((urlScan text.data).filter (fun u => isImageUrl (String.mk u))).map String.mk

/-- The `replace(urlRegex, cb)` of `removeImageUrls`: an image url is
replaced by the empty string, any other match is kept verbatim. -/
def removeUrlScanGo : Nat → List Char → List Char
  | 0, l => l
  | _ + 1, [] => []
  | fuel + 1, c :: rest =>
    match matchUrl (c :: rest) with
    | some (url, rest2) =>
      (if isImageUrl (String.mk url) then [] else url) ++ removeUrlScanGo fuel rest2
    | none => c :: removeUrlScanGo fuel rest

/-- `replace(/\n{3,}/g, '\n\n')`: a maximal run of three or more newlines
becomes exactly two. -/
def collapseNlGo : Nat → List Char → List Char
  | 0, l => l
  | _ + 1, [] => []
  | fuel + 1, c :: rest =>
    if c == '\n' then
      let sp := (c :: rest).span (fun x => x == '\n')
      (if 3 ≤ sp.1.length then ['\n', '\n'] else sp.1) ++ collapseNlGo fuel sp.2
    else c :: collapseNlGo fuel rest

def collapseNewlines (l : List Char) : List Char := collapseNlGo l.length l

/-- `removeImageUrls` (lines 221-229). -/
def removeImageUrls (text : List Char) : List Char :=
  if text.isEmpty then []
  else jsTrim (collapseNewlines (removeUrlScanGo text.length text))

/-- `[...new Set(imageUrls)]`: deduplicate by exact string match, keeping
first occurrences in order. -/
def dedup (l : List String) : List String :=
  l.foldl (fun acc s => if s ∈ acc then acc else acc ++ [s]) []

/-- `extractMarkdownImages` (lines 150-180): markdown-image pass, trim,
standalone-url pass, url removal, then the final newline collapse and trim
of the returned record. -/
def extractMarkdownImages (text : String) : String × List String :=
  if text = "" then ("", [])
  else
    let r := mdImageScan text.data
    let cleanText1 := jsTrim r.2
    let additionalUrls := extractImageUrls (String.mk cleanText1)
    let cleanText2 := removeImageUrls cleanText1
    (String.mk (jsTrim (collapseNewlines cleanText2)),
     dedup (r.1.map String.mk ++ additionalUrls))

/-! #### formatForTelegram (lines 232-268) -/

/-- Literal global find-and-replace (for the non-regex `replace` steps and
the fixed section-header patterns). -/
def replaceAllGo (pat rep : List Char) : Nat → List Char → List Char
  | 0, l => l
  | _ + 1, [] => []
  | fuel + 1, c :: rest =>
    if pat ≠ [] ∧ pat.isPrefixOf (c :: rest) then
      rep ++ replaceAllGo pat rep fuel ((c :: rest).drop pat.length)
    else c :: replaceAllGo pat rep fuel rest

def replaceAllLit (pat rep : String) (l : List Char) : List Char :=
  replaceAllGo pat.data rep.data l.length l

/-- The lazy group of `/\*\*(.*?)\*\*/`: the shortest run of non-newline
characters followed by a closing `**`. -/
def findBoldClose : List Char → Option (List Char × List Char)
  | '*' :: '*' :: rest => some ([], rest)
  | c :: rest =>
    if c == '\n' then none
    else (findBoldClose rest).map (fun r => (c :: r.1, r.2))
  | [] => none

/-- `replace(/\*\*(.*?)\*\*/g, '*$1*')`. -/
def boldScanGo : Nat → List Char → List Char
  | 0, l => l
  | _ + 1, [] => []
  | fuel + 1, '*' :: '*' :: rest =>
    (match findBoldClose rest with
     | some (group, rest2) => '*' :: (group ++ '*' :: boldScanGo fuel rest2)
     | none => '*' :: boldScanGo fuel ('*' :: rest))
  | fuel + 1, c :: rest => c :: boldScanGo fuel rest

/-- The single-quote and backtick characters, named to keep the source
text free of delimiter literals. -/
def quoteChar : Char := Char.ofNat 39

def backtickChar : Char := Char.ofNat 96

/-- `replace(/'([^']+)'/g, '` + "`$1`" + `')`: a non-empty run between two
single quotes is re-wrapped in backticks. -/
def quoteScanGo : Nat → List Char → List Char
  | 0, l => l
  | _ + 1, [] => []
  | fuel + 1, c :: rest =>
    if c == quoteChar then
      let grp := rest.takeWhile (fun x => x != quoteChar)
      match rest.drop grp.length with
      | _ :: rest2 =>
        if grp.isEmpty then c :: quoteScanGo fuel rest
        else backtickChar :: (grp ++ backtickChar :: quoteScanGo fuel rest2)
      | [] => c :: quoteScanGo fuel rest
    else c :: quoteScanGo fuel rest

/-- `replace(/(E1|E2|..)\s*\*/g, '\nE *')` for the emoji-header spacing
rules; `alts` are the emoji alternatives as codepoint lists. -/
def emojiHeaderGo (alts : List (List Char)) : Nat → List Char → List Char
  | 0, l => l
  | _ + 1, [] => []
  | fuel + 1, c :: rest =>
    match alts.find? (fun a => !a.isEmpty && a.isPrefixOf (c :: rest)) with
    | some a =>
      let afterAlt := (c :: rest).drop a.length
      let ws := afterAlt.takeWhile isJsSpace
      match afterAlt.drop ws.length with
      | '*' :: rest2 => '\n' :: (a ++ ' ' :: '*' :: emojiHeaderGo alts fuel rest2)
      | _ => c :: emojiHeaderGo alts fuel rest
    | none => c :: emojiHeaderGo alts fuel rest

/-- Split on newline (for the `m`-flag line anchors, modelled
line-locally; see `headerLine` and `bulletLine`). -/
def splitNl : List Char → List (List Char)
  | [] => [[]]
  | c :: rest =>
    match splitNl rest with
    | [] => [[c]]
    | line :: more =>
      if c == '\n' then [] :: line :: more else (c :: line) :: more

def joinNl (lines : List (List Char)) : List Char :=
  (lines.intersperse ['\n']).flatten

/-- `replace(/^(ANA YEMEKLER|BAŞLANGIÇLAR|TATLILAR|İÇECEKLER|SALATALAR)\s*$/gm,
'🍽️ *$1*')`, modelled per line: a line that is one of the five category
literals followed only by whitespace is rewritten (the rare case of the
`\s*` crossing line boundaries is not modelled; the specification marks
this decoration as cosmetic). -/
def headerLine (line : List Char) : List Char :=
  let cats := ["ANA YEMEKLER", "BAŞLANGIÇLAR", "TATLILAR", "İÇECEKLER", "SALATALAR"]
  match cats.find? (fun lit => lit.data.isPrefixOf line && (line.drop lit.data.length).all isJsSpace) with
  | some lit => "🍽️ *".data ++ lit.data ++ ['*']
  | none => line

/-- `replace(/^-\s+([^:]+):\s*(.+)$/gm, '◦ *$1:* $2')`, modelled per line
with the greedy/backtracking behaviour of the groups: `\s+` takes the
maximal whitespace run (backing off one character when `[^:]+` would be
empty), `[^:]+` runs to the first colon, and `\s*` after the colon backs
off so that `(.+)` keeps at least one character. -/
def bulletLine (line : List Char) : List Char :=
  match line with
  | '-' :: rest =>
    let pre := rest.takeWhile (fun c => c != ':')
    (match rest.drop pre.length with
     | _ :: post =>
       let wsRun := rest.takeWhile isJsSpace
       if wsRun.length = 0 then line
       else if pre.length < 2 then line
       else if post.length = 0 then line
       else
         let a := pre.drop wsRun.length
         let g1 := if a.isEmpty then pre.drop (wsRun.length - 1) else a
         let w2 := (post.takeWhile isJsSpace).length
         let g2 := post.drop (min w2 (post.length - 1))
         "◦ *".data ++ g1 ++ ":* ".data ++ g2
     | [] => line)
  | _ => line

def mapLines (f : List Char → List Char) (l : List Char) : List Char :=
  joinNl ((splitNl l).map f)

/-- `formatForTelegram` (lines 232-268): the full replace chain. -/
def formatForTelegram (text : String) : String :=
  if text = "" then text
  else
    let f1 := replaceAllLit "\\n" "\n" text.data
    let f2 := boldScanGo f1.length f1
    let f3 := replaceAllLit "*Detaylı Açıklama:*" "📋 *Detaylı Açıklama:*" f2
    let f4 := replaceAllLit "*Alerjen Bilgisi:*" "⚠️ *Alerjen Bilgisi:*" f3
    let f5 := replaceAllLit "*Şarap Eşleşmesi Önerisi:*" "🍷 *Şarap Eşleşmesi Önerisi:*" f4
    let f6 := mapLines headerLine f5
    let f7 := mapLines bulletLine f6
    let f8 := quoteScanGo f7.length f7
    let f9 := emojiHeaderGo ["📋".data, "⚠️".data, "🍷".data] f8.length f8
    let f10 := emojiHeaderGo ["🍽️".data] f9.length f9
    String.mk (jsTrim (collapseNewlines f10))

/-! #### processDifyResponse (lines 271-316) and validateTelegramMarkdown
(lines 319-351) -/

/-- A JS value as far as `processDifyResponse`'s guard can distinguish it:
`!responseText || typeof responseText !== 'string'` rejects everything but
a non-empty string. -/
inductive JsInput where
  | jnull
  | jundef
  | jnum (n : Int)
  | jbool (b : Bool)
  | jstr (s : String)
  deriving Repr, DecidableEq

structure ProcessedResponse where
  text : String
  imageUrls : List String
  hasImages : Bool
  useMarkdown : Bool
  deriving Repr, DecidableEq

/-- The fixed completion acknowledgment of the final `else` branch. -/
def completionAck : String := "✅ İşleminiz tamamlandı!"

def processDifyResponse (responseText : JsInput) : ProcessedResponse :=
  match responseText with
  | .jstr s =>
    if s = "" then { text := "", imageUrls := [], hasImages := false, useMarkdown := false }
    else
      let r := extractMarkdownImages s
      if 0 < r.1.length then
        { text := formatForTelegram r.1, imageUrls := r.2,
          hasImages := decide (0 < r.2.length), useMarkdown := true }
      else if 0 < r.2.length then
        { text := "", imageUrls := r.2, hasImages := true, useMarkdown := false }
      else
        { text := completionAck, imageUrls := [], hasImages := false, useMarkdown := false }
  | _ => { text := "", imageUrls := [], hasImages := false, useMarkdown := false }

/-- `substring(0, last) + substring(last + 1)`: drop the last occurrence of
a character (erasing the first occurrence in the reversed list does exactly
this; when the character is absent both sides are the identity). -/
def removeLastOcc (c : Char) (l : List Char) : List Char :=
  (l.reverse.erase c).reverse

/-- The unmatched-delimiter fix: when the count of `c` is odd, drop its
last occurrence. -/
def fixOddDelim (c : Char) (l : List Char) : List Char :=
  if (l.count c) % 2 ≠ 0 then removeLastOcc c l else l

/-- `replace(/D\s*D/g, '')` for a delimiter `D` (`*` or a backtick):
remove a pair of delimiters separated only by whitespace, continuing after
the removed pair; on a failed attempt restart one character further. -/
def removeEmptyDelimsGo (d : Char) : Nat → List Char → List Char
  | 0, l => l
  | _ + 1, [] => []
  | fuel + 1, c :: rest =>
    if c = d then
      match rest.dropWhile isJsSpace with
      | e :: rest2 =>
        if e = d then removeEmptyDelimsGo d fuel rest2
        else c :: removeEmptyDelimsGo d fuel rest
      | [] => c :: removeEmptyDelimsGo d fuel rest
    else c :: removeEmptyDelimsGo d fuel rest

def removeEmptyDelims (d : Char) (l : List Char) : List Char :=
  removeEmptyDelimsGo d l.length l

/-- `validateTelegramMarkdown` (lines 319-351), the normal path: fix odd
asterisk and backtick counts, remove empty pairs, trim; always returns
`isValid = true`.  The `try` body is total, so this is the function's
behaviour on every input. -/
def validateTelegramMarkdown (text : String) : Bool × String :=
  if text = "" then (true, "")
  else
    let c1 := fixOddDelim '*' text.data
    let c2 := fixOddDelim backtickChar c1
    let c3 := jsTrim (removeEmptyDelims backtickChar (removeEmptyDelims '*' c2))
    (true, String.mk c3)

/-- The `catch` branch of `validateTelegramMarkdown`:
`{ isValid: false, cleaned: text.replace(/[*`_]/g, '') }`. -/
def validateMarkdownCatch (text : String) : Bool × String :=
  (false,
   String.mk (text.data.filter (fun c => !(c == '*' || c == backtickChar || c == '_'))))

/-! ### Telegram delivery (src/api/webhook.js lines 358-682)

An outbound request is recorded as a `TgCall`; the platform's reply to each
attempt is drawn from an oracle list of `TgResp`, consumed in order.
`telegramApiCall` wraps one logical call in `retryOperation` with
`RETRY_ATTEMPTS = 2`: the retried attempt resends the *same* parameters
(the `noRetry` flag set for 400/403/404 is never consulted by
`retryOperation`). -/

structure TgCall where
  method : String
  chatId : Nat
  text : Option String := none
  photo : Option String := none
  caption : Option String := none
  parseMode : Option String := none
  replyToMessageId : Option Nat := none
  businessConnectionId : Option String := none
  disableWebPagePreview : Bool := false
  deriving Repr, DecidableEq

inductive TgResp where
  | ok
  | apiErr (code : Nat) (description : String)
  | netErr
  deriving Repr, DecidableEq

def tgAttempt : TgResp → Except String Unit
  | .ok => .ok ()
  | .apiErr _ d => .error ("Telegram API error: " ++ d)
  | .netErr => .error "fetch failed"

/-- `retryOperation` around one `telegramApiCall`: up to `maxAttempts`
attempts, each sending the same `call`; the error of the final attempt
propagates.  Returns the outcome, the attempts actually sent, and the
unconsumed oracle suffix. -/
def runTgAttempts : Nat → List TgResp → TgCall → Except String Unit × List TgCall × List TgResp
  | 0, resps, _ => (.error "no attempts", [], resps)
  | n + 1, [], call =>
    if n = 0 then (.error "fetch failed", [call], [])
    else
      let r := runTgAttempts n [] call
      (r.1, call :: r.2.1, r.2.2)
  | n + 1, resp :: rest, call =>
    match tgAttempt resp with
    | .ok _ => (.ok (), [call], rest)
    | .error e =>
      if n = 0 then (.error e, [call], rest)
      else
        let r := runTgAttempts n rest call
        (r.1, call :: r.2.1, r.2.2)

structure SendState where
  resps : List TgResp
  trace : List TgCall
  deriving Repr, DecidableEq

/-- One `telegramApiCall(method, params)` (lines 458-499) with
`RETRY_ATTEMPTS = 2`. -/
def doTgCall (st : SendState) (call : TgCall) : Except String Unit × SendState :=
  let r := runTgAttempts 2 st.resps call
  (r.1, { resps := r.2.2, trace := st.trace ++ r.2.1 })

/-- The `for` loop over `processed.imageUrls` from index 1 (lines 568-586):
each send's failure is caught and logged only. -/
def sendAdditionalImages (chatId : Nat) (bc : Option String) :
    SendState → List String → SendState
  | st, [] => st
  | st, url :: rest =>
    let call : TgCall :=
      { method := "sendPhoto", chatId := chatId, photo := some url,
        businessConnectionId := bc }
    sendAdditionalImages chatId bc (doTgCall st call).2 rest

/-- The fixed ack of the no-content branch (line 646). -/
def deliveryAck : String := "✅ *İşleminiz başarıyla tamamlandı!*"

/-- The fixed text of the outer-catch final fallback (line 669). -/
def deliveryFallback : String :=
  "😔 Üzgünüm, şu anda teknik bir sorun yaşıyorum. Lütfen birkaç dakika sonra tekrar deneyin."

/-- `sendFormattedMessage(chatId, responseText, replyToMessageId,
businessConnectionId)` (lines 502-682).  The guards before the `try` throw
to the caller; inside the `try`, failures of individual image/extra-text
sends are swallowed, while a failure of the text-only or ack send reaches
the outer `catch`, which sends the fixed fallback with no `parse_mode` and
returns that call's own outcome. -/
def sendFormattedMessage (st : SendState) (chatId : Nat) (responseText : String)
    (replyTo : Option Nat) (bc : Option String) : Except String Unit × SendState :=
  if responseText = "" then (.error "Invalid response text", st)
  else if chatId = 0 then (.error "Invalid chat ID", st)
  else
    let processed := processDifyResponse (.jstr responseText)
    let tryResult : Except String Unit × SendState :=
      if processed.hasImages ∧ 0 < processed.imageUrls.length then
        let firstCall : TgCall :=
          { method := "sendPhoto", chatId := chatId,
            photo := some (processed.imageUrls.headD ""),
            caption :=
              if processed.text ≠ "" then
                some (if 1000 < processed.text.length
                      then processed.text.take 997 ++ "..."
                      else processed.text)
              else none,
            parseMode :=
              if processed.text ≠ "" ∧ processed.useMarkdown then some "Markdown" else none,
            replyToMessageId := replyTo, businessConnectionId := bc }
        let st1 := (doTgCall st firstCall).2
        let st2 := sendAdditionalImages chatId bc st1 (processed.imageUrls.drop 1)
        let st3 :=
          if 1000 < processed.text.length then
            let validation := validateTelegramMarkdown processed.text
            let textCall : TgCall :=
              { method := "sendMessage", chatId := chatId,
                text := some validation.2, disableWebPagePreview := true,
                parseMode :=
                  if validation.1 ∧ processed.useMarkdown then some "Markdown" else none,
                businessConnectionId := bc }
            (doTgCall st2 textCall).2
          else st2
        (.ok (), st3)
      else if processed.text ≠ "" then
        let validation := validateTelegramMarkdown processed.text
        let call : TgCall :=
          { method := "sendMessage", chatId := chatId,
            text := some validation.2, disableWebPagePreview := true,
            parseMode :=
              if validation.1 ∧ processed.useMarkdown then some "Markdown" else none,
            replyToMessageId := replyTo, businessConnectionId := bc }
        doTgCall st call
      else
        let ackCall : TgCall :=
          { method := "sendMessage", chatId := chatId,
            text := some deliveryAck, parseMode := some "Markdown",
            replyToMessageId := replyTo, businessConnectionId := bc }
        doTgCall st ackCall
    match tryResult.1 with
    | .ok _ => (.ok (), tryResult.2)
    | .error _ =>
      let fallbackCall : TgCall :=
        { method := "sendMessage", chatId := chatId,
          text := some deliveryFallback,
          replyToMessageId := replyTo, businessConnectionId := bc }
      doTgCall tryResult.2 fallbackCall

/-! ### The webhook entry point (src/api/webhook.js lines 787-872)

The HTTP layer is abstracted to the decisions the handler actually makes:
the three environment variables, the method, the presence of a body, the
update type, and whether the awaited `handleMessage` promise rejects.
`handleMessage`'s own failure handling (its `catch` sends a fallback and
swallows any error from that) means an `Except.error` outcome here stands
for any rejection whatsoever.  The handler's `catch` attempts one
best-effort `sendMessage` whose own outcome is ignored, then responds 200. -/

structure HandlerEnv where
  hasTelegramToken : Bool
  hasDifyUrl : Bool
  hasDifyToken : Bool
  deriving Repr, DecidableEq

inductive UpdateKind where
  | businessConnection
  | businessMessage
  | message
  | other
  deriving Repr, DecidableEq

def handler (env : HandlerEnv) (method : String) (body : Option UpdateKind)
    (handleOutcome : Except String Unit) (fallbackSendOutcome : Except String Unit) :
    Nat :=
  if ¬(env.hasTelegramToken ∧ env.hasDifyUrl ∧ env.hasDifyToken) then 500
  else if method ≠ "POST" then 405
  else
    match body with
    | none => 400
    | some update =>
      match update with
      | .businessConnection => 200
      | .businessMessage | .message =>
        match handleOutcome with
        | .ok _ => 200
        | .error _ =>
          -- catch branch: best-effort fallback send, outcome swallowed,
          -- then `res.status(200).json({ status: 'error_handled', ... })`
          match fallbackSendOutcome with
          | .ok _ => 200
          | .error _ => 200
      | .other => 200

/-! ### Concrete states used by the counterexamples and witnesses -/

/-- A stored session holding a previously assigned conversation token. -/
def c1Session : Session :=
  { userId := 5, conversationId := "abc", createdAt := 0, lastAccessed := 0,
    requestCount := 1, reservationState := none }

def c1Store : SessionManager :=
  { sessions := [("5", c1Session)], reservations := [],
    maxSessions := 10000, sessionTTL := 24 * 60 * 60 * 1000 }

/-- The entry with the globally smallest `lastAccessed` in `c4Store`. -/
def c4Oldest : Session :=
  { userId := 1, conversationId := "", createdAt := 0, lastAccessed := 0,
    requestCount := 0, reservationState := none }

/-- A TTL-expired session of user 42 whose `lastAccessed` is *not* the
smallest in the store. -/
def c4Expired : Session :=
  { userId := 42, conversationId := "", createdAt := 0, lastAccessed := 100,
    requestCount := 0, reservationState := none }

/-- 9998 further sessions, recently created, `lastAccessed = 50`. -/
def c4Fill : List (String × Session) :=
  (List.range 9998).map (fun i =>
    (toString (i + 100),
     { userId := i + 100, conversationId := "", createdAt := 86400000,
       lastAccessed := 50, requestCount := 0, reservationState := none }))

/-- A session store at the configured maximum (10000 entries) in which user
42's own entry is TTL-expired at time 86400001. -/
def c4Store : SessionManager :=
  { sessions := ("42", c4Expired) :: ("1", c4Oldest) :: c4Fill,
    reservations := [], maxSessions := 10000, sessionTTL := 24 * 60 * 60 * 1000 }

/-- The fresh session `getUserSession` builds for user 42 at time
86400001. -/
def c4New : Session :=
  { userId := 42, conversationId := "", createdAt := 86400001,
    lastAccessed := 86400001, requestCount := 0, reservationState := none }

/-- `c4Store` after user 42's TTL-expired entry has been deleted (the state
on which `createSession` then runs). -/
def c4Mid : SessionManager :=
  { c4Store with sessions := ("1", c4Oldest) :: c4Fill, reservations := [] }

/-- A small store at its capacity bound, used to instantiate the amended
eviction theorem on a concrete input. -/
def c4SmallStore : SessionManager :=
  { sessions :=
      [("1", { userId := 1, conversationId := "", createdAt := 90,
               lastAccessed := 95, requestCount := 0, reservationState := none }),
       ("2", { userId := 2, conversationId := "", createdAt := 80,
               lastAccessed := 93, requestCount := 0, reservationState := none })],
    reservations := [], maxSessions := 2, sessionTTL := 24 * 60 * 60 * 1000 }

/-- Oracle: the platform rejects the first two (identical) attempts with a
markup-parse error and accepts the third call. -/
def c8Store : SendState :=
  { resps := [.apiErr 400 "Bad Request: can't parse entities",
              .apiErr 400 "Bad Request: can't parse entities", .ok],
    trace := [] }

/-- The text message the delivery layer actually sends for `"*merhaba*"`:
rich markup enabled. -/
def c8MarkdownCall : TgCall :=
  { method := "sendMessage", chatId := 5, text := some "*merhaba*",
    parseMode := some "Markdown", replyToMessageId := some 9,
    disableWebPagePreview := true }

/-- The final-fallback message: fixed text, no markup. -/
def c8FallbackCall : TgCall :=
  { method := "sendMessage", chatId := 5, text := some deliveryFallback,
    replyToMessageId := some 9 }

end Relay

/-! ## Theorems -/

namespace Relay

/-! ### Association-list lemmas -/

theorem alookup_aset_self {κ α : Type} [DecidableEq κ] (m : List (κ × α)) (k : κ) (v : α) :
    alookup (aset m k v) k = some v := by
  induction m with
  | nil => simp [aset, alookup]
  | cons kv rest ih =>
    obtain ⟨k1, w⟩ := kv
    by_cases h : k1 = k
    · simp [aset, alookup, h]
    · simp [aset, alookup, h, ih]

theorem alookup_cons_self {κ α : Type} [DecidableEq κ] (k : κ) (v : α)
    (rest : List (κ × α)) : alookup ((k, v) :: rest) k = some v := by
  simp [alookup]

theorem alookup_aset_ne {κ α : Type} [DecidableEq κ] (m : List (κ × α)) (k k2 : κ) (v : α)
    (h : k2 ≠ k) : alookup (aset m k v) k2 = alookup m k2 := by
  induction m with
  | nil =>
    have hk : ¬ k = k2 := fun hh => h hh.symm
    simp [aset, alookup, hk]
  | cons kv rest ih =>
    obtain ⟨k1, w⟩ := kv
    by_cases h1 : k1 = k
    · have hk : ¬ k = k2 := fun hh => h hh.symm
      simp [aset, alookup, h1, hk]
    · by_cases h2 : k1 = k2
      · simp [aset, alookup, h1, h2, h]
      · simp [aset, alookup, h1, h2, ih]

theorem aset_eq_self {κ α : Type} [DecidableEq κ] (m : List (κ × α)) (k : κ) (v : α)
    (h : alookup m k = some v) : aset m k v = m := by
  induction m with
  | nil => simp [alookup] at h
  | cons kv rest ih =>
    obtain ⟨k1, w⟩ := kv
    by_cases h1 : k1 = k
    · have h2 : w = v := by
        simpa [alookup, h1] using h
      simp [aset, h1, h2]
    · simp only [alookup, if_neg h1] at h
      simp [aset, h1, ih h]

theorem alookup_adelete_ne {κ α : Type} [DecidableEq κ] (m : List (κ × α)) (k k2 : κ)
    (h : k2 ≠ k) : alookup (adelete m k) k2 = alookup m k2 := by
  induction m with
  | nil => simp [adelete]
  | cons kv rest ih =>
    obtain ⟨k1, w⟩ := kv
    by_cases h1 : k1 = k
    · have hk : ¬ k = k2 := fun hh => h hh.symm
      simp [adelete, alookup, h1, hk]
    · by_cases h2 : k1 = k2
      · simp [adelete, alookup, h1, h2, h]
      · simp [adelete, alookup, h1, h2, ih]

theorem alookup_eq_none_of_not_mem {κ α : Type} [DecidableEq κ] (m : List (κ × α)) (k : κ)
    (h : k ∉ m.map Prod.fst) : alookup m k = none := by
  induction m with
  | nil => rfl
  | cons kv rest ih =>
    obtain ⟨k1, w⟩ := kv
    simp only [List.map_cons, List.mem_cons] at h
    push_neg at h
    have h1 : ¬ k1 = k := fun hh => h.1 hh.symm
    simp [alookup, h1, ih h.2]

theorem alookup_eq_some_of_mem_nodup {κ α : Type} [DecidableEq κ] (m : List (κ × α))
    (k : κ) (v : α) (hnodup : (m.map Prod.fst).Nodup) (hmem : (k, v) ∈ m) :
    alookup m k = some v := by
  induction m with
  | nil => simp at hmem
  | cons kv rest ih =>
    obtain ⟨k1, w⟩ := kv
    simp only [List.map_cons, List.nodup_cons] at hnodup
    rcases List.mem_cons.mp hmem with h | h
    · obtain ⟨hk, hv⟩ := Prod.ext_iff.mp h
      simp only [] at hk hv
      simp [alookup, hk.symm, hv]
    · have hk1 : ¬ k1 = k := by
        intro hh
        subst hh
        exact hnodup.1 (List.mem_map.mpr ⟨(k1, v), h, rfl⟩)
      simp [alookup, hk1, ih hnodup.2 h]

theorem alookup_adelete_self {κ α : Type} [DecidableEq κ] (m : List (κ × α)) (k : κ)
    (hnodup : (m.map Prod.fst).Nodup) : alookup (adelete m k) k = none := by
  induction m with
  | nil => rfl
  | cons kv rest ih =>
    obtain ⟨k1, w⟩ := kv
    simp only [List.map_cons, List.nodup_cons] at hnodup
    by_cases h1 : k1 = k
    · subst h1
      simp only [adelete, if_pos rfl]
      exact alookup_eq_none_of_not_mem rest k1 hnodup.1
    · simp [adelete, alookup, h1, ih hnodup.2]

theorem length_aset_none {κ α : Type} [DecidableEq κ] (m : List (κ × α)) (k : κ) (v : α)
    (h : alookup m k = none) : (aset m k v).length = m.length + 1 := by
  induction m with
  | nil => rfl
  | cons kv rest ih =>
    obtain ⟨k1, w⟩ := kv
    by_cases h1 : k1 = k
    · simp [alookup, h1] at h
    · simp only [alookup, if_neg h1] at h
      simp [aset, h1, ih h]

theorem length_adelete_some {κ α : Type} [DecidableEq κ] (m : List (κ × α)) (k : κ) (v : α)
    (h : alookup m k = some v) : (adelete m k).length + 1 = m.length := by
  induction m with
  | nil => simp [alookup] at h
  | cons kv rest ih =>
    obtain ⟨k1, w⟩ := kv
    by_cases h1 : k1 = k
    · simp [adelete, h1]
    · simp only [alookup, if_neg h1] at h
      simp [adelete, h1, ih h]

theorem mem_of_alookup_eq_some {κ α : Type} [DecidableEq κ] (m : List (κ × α)) (k : κ)
    (v : α) (h : alookup m k = some v) : (k, v) ∈ m := by
  induction m with
  | nil => simp [alookup] at h
  | cons kv rest ih =>
    obtain ⟨k1, w⟩ := kv
    by_cases h1 : k1 = k
    · subst h1
      simp only [alookup, if_pos rfl] at h
      simp at h
      simp [h]
    · simp only [alookup, if_neg h1] at h
      exact List.mem_cons_of_mem _ (ih h)

/-! ### C4: eviction at capacity -/

/-- Behaviour of the `evictOldestSession` scan for an arbitrary running
accumulator: the running minimum never increases, bounds every scanned
entry, is either untouched or realised by a scanned entry, and strictly
decreases as soon as some scanned entry beats it. -/
theorem oldestScanGo_spec (l : List (String × Session)) :
    ∀ (okey : Option String) (otime : Nat),
      (l.foldl
          (fun acc kv =>
            if kv.2.lastAccessed < acc.2 then (some kv.1, kv.2.lastAccessed) else acc)
          (okey, otime)).2 ≤ otime ∧
      (∀ kv ∈ l,
        (l.foldl
            (fun acc kv =>
              if kv.2.lastAccessed < acc.2 then (some kv.1, kv.2.lastAccessed) else acc)
            (okey, otime)).2 ≤ kv.2.lastAccessed) ∧
      ((l.foldl
          (fun acc kv =>
            if kv.2.lastAccessed < acc.2 then (some kv.1, kv.2.lastAccessed) else acc)
          (okey, otime)) = (okey, otime) ∨
        ∃ kv ∈ l,
          (l.foldl
              (fun acc kv =>
                if kv.2.lastAccessed < acc.2 then (some kv.1, kv.2.lastAccessed) else acc)
              (okey, otime)).1 = some kv.1 ∧
          (l.foldl
              (fun acc kv =>
                if kv.2.lastAccessed < acc.2 then (some kv.1, kv.2.lastAccessed) else acc)
              (okey, otime)).2 = kv.2.lastAccessed) ∧
      ((∃ kv ∈ l, kv.2.lastAccessed < otime) →
        (l.foldl
            (fun acc kv =>
              if kv.2.lastAccessed < acc.2 then (some kv.1, kv.2.lastAccessed) else acc)
            (okey, otime)).2 < otime) := by
  induction l with
  | nil =>
    intro okey otime
    simp
  | cons hd rest ih =>
    intro okey otime
    by_cases hlt : hd.2.lastAccessed < otime
    · have ihr := ih (some hd.1) hd.2.lastAccessed
      simp only [List.foldl_cons, if_pos hlt]
      refine ⟨le_trans ihr.1 (le_of_lt hlt), ?_, ?_, ?_⟩
      · intro kv hkv
        rcases List.mem_cons.mp hkv with h | h
        · subst h
          exact ihr.1
        · exact ihr.2.1 kv h
      · rcases ihr.2.2.1 with h | ⟨kv, hkv, h1, h2⟩
        · exact Or.inr ⟨hd, List.mem_cons_self .., by rw [h]; exact ⟨rfl, rfl⟩⟩
        · exact Or.inr ⟨kv, List.mem_cons_of_mem _ hkv, h1, h2⟩
      · intro _
        exact lt_of_le_of_lt ihr.1 hlt
    · have ihr := ih okey otime
      simp only [List.foldl_cons, if_neg hlt]
      refine ⟨ihr.1, ?_, ?_, ?_⟩
      · intro kv hkv
        rcases List.mem_cons.mp hkv with h | h
        · subst h
          exact le_trans ihr.1 (not_lt.mp hlt)
        · exact ihr.2.1 kv h
      · rcases ihr.2.2.1 with h | ⟨kv, hkv, h1, h2⟩
        · exact Or.inl h
        · exact Or.inr ⟨kv, List.mem_cons_of_mem _ hkv, h1, h2⟩
      · rintro ⟨kv, hkv, hkvlt⟩
        rcases List.mem_cons.mp hkv with h | h
        · subst h
          exact absurd hkvlt hlt
        · exact ihr.2.2.2 ⟨kv, h, hkvlt⟩

/-- When some stored entry is strictly older than the scan's start instant,
`evictOldestSession` removes exactly one entry, and that entry has the
smallest `lastAccessed` in the store. -/
theorem evictOldest_spec (m : SessionManager) (nowE : Nat)
    (hnodup : (m.sessions.map Prod.fst).Nodup)
    (hmin : ∃ kv ∈ m.sessions, kv.2.lastAccessed < nowE) :
    ∃ k s, alookup m.sessions k = some s ∧
      (∀ kv ∈ m.sessions, s.lastAccessed ≤ kv.2.lastAccessed) ∧
      (evictOldestSession m nowE).sessions = adelete m.sessions k := by
  have spec := oldestScanGo_spec m.sessions none nowE
  have hlt := spec.2.2.2 hmin
  rcases spec.2.2.1 with h | ⟨kv, hkv, h1, h2⟩
  · rw [h] at hlt
    exact absurd hlt (lt_irrefl _)
  · refine ⟨kv.1, kv.2, alookup_eq_some_of_mem_nodup _ _ _ hnodup hkv, ?_, ?_⟩
    · intro kv2 hkv2
      have := spec.2.1 kv2 hkv2
      rw [h2] at this
      exact this
    · unfold evictOldestSession
      rw [show (oldestScan nowE m.sessions).1 =
          (m.sessions.foldl
            (fun acc kv =>
              if kv.2.lastAccessed < acc.2 then (some kv.1, kv.2.lastAccessed) else acc)
            (none, nowE)).1 from rfl, h1]

/-- Claim C4 (amended).  From a full store (size at the configured maximum,
keys unique), a `getUserSession` call for a user with no stored entry
creates one fresh session and evicts exactly one entry whose `lastAccessed`
is minimal — *provided* at least one stored entry's `lastAccessed` is
strictly below the eviction instant.  (Without that proviso nothing is
evicted, because the scan starts at `Date.now()` and compares strictly; and
when the calling user's own entry exists but is TTL-expired, that entry —
not the oldest one — is the one removed: see `C4_counterexample`.) -/
theorem C4_amended (m : SessionManager) (userId now nowE : Nat)
    (huid : userId ≠ 0)
    (hfresh : alookup m.sessions (toString userId) = none)
    (hfull : m.maxSessions ≤ m.sessions.length)
    (hnodup : (m.sessions.map Prod.fst).Nodup)
    (hmin : ∃ kv ∈ m.sessions, kv.2.lastAccessed < nowE) :
    ∃ m' : SessionManager,
      getUserSession m userId now nowE =
        .ok ({ userId := userId, conversationId := "", createdAt := now,
               lastAccessed := now, requestCount := 0, reservationState := none }, m') ∧
      m'.sessions.length = m.sessions.length ∧
      alookup m'.sessions (toString userId) =
        some { userId := userId, conversationId := "", createdAt := now,
               lastAccessed := now, requestCount := 0, reservationState := none } ∧
      ∃ k s, alookup m.sessions k = some s ∧
        (∀ kv ∈ m.sessions, s.lastAccessed ≤ kv.2.lastAccessed) ∧
        alookup m'.sessions k = none ∧
        (∀ j, j ≠ k → j ≠ toString userId →
          alookup m'.sessions j = alookup m.sessions j) := by
  obtain ⟨k, s, hks, hsmin, hevict⟩ := evictOldest_spec m nowE hnodup hmin
  have hkne : k ≠ toString userId := by
    intro h
    rw [h, hfresh] at hks
    exact Option.noConfusion hks
  refine ⟨{ evictOldestSession m nowE with
            sessions := aset (evictOldestSession m nowE).sessions (toString userId)
              { userId := userId, conversationId := "", createdAt := now,
                lastAccessed := now, requestCount := 0, reservationState := none } },
    ?_, ?_, ?_, k, s, hks, hsmin, ?_, ?_⟩
  · simp only [getUserSession, if_neg huid, hfresh, createSession, if_pos hfull]
  · rw [hevict]
    rw [length_aset_none]
    · rw [length_adelete_some m.sessions k s hks]
    · rw [alookup_adelete_ne _ _ _ (fun h => hkne h.symm)]
      exact hfresh
  · exact alookup_aset_self _ _ _
  · rw [hevict, alookup_aset_ne _ _ _ _ hkne]
    exact alookup_adelete_self _ _ hnodup
  · intro j hjk hjkey
    rw [hevict, alookup_aset_ne _ _ _ _ hjkey, alookup_adelete_ne _ _ _ hjk]

/-- Witness for `C4_amended`: a store of two sessions at its capacity bound
of two; user 3 arrives and the older entry is evicted. -/
theorem C4_witness :
    ∃ m' : SessionManager,
      getUserSession c4SmallStore 3 100 100 =
        .ok ({ userId := 3, conversationId := "", createdAt := 100,
               lastAccessed := 100, requestCount := 0, reservationState := none }, m') ∧
      m'.sessions.length = c4SmallStore.sessions.length ∧
      alookup m'.sessions (toString 3) =
        some { userId := 3, conversationId := "", createdAt := 100,
               lastAccessed := 100, requestCount := 0, reservationState := none } ∧
      ∃ k s, alookup c4SmallStore.sessions k = some s ∧
        (∀ kv ∈ c4SmallStore.sessions, s.lastAccessed ≤ kv.2.lastAccessed) ∧
        alookup m'.sessions k = none ∧
        (∀ j, j ≠ k → j ≠ toString 3 →
          alookup m'.sessions j = alookup c4SmallStore.sessions j) :=
  C4_amended c4SmallStore 3 100 100 (by decide) (by decide) (by decide)
    (by decide) (by decide)

/-- Claim C4 (counterexample).  `c4Store` is at the configured maximum of
10000 sessions and its unique oldest entry is `("1", c4Oldest)`
(`lastAccessed = 0`).  A `getUserSession` call by user 42 — whose own entry
is TTL-expired with `lastAccessed = 100` — creates one more session, yet
the oldest entry survives: the entry removed is user 42's expired one, not
the one with the smallest `lastAccessed`. -/
theorem C4_counterexample :
    c4Store.sessions.length = c4Store.maxSessions ∧
    (∀ kv ∈ c4Store.sessions, c4Oldest.lastAccessed ≤ kv.2.lastAccessed) ∧
    (∀ kv ∈ c4Store.sessions, kv.2.lastAccessed = c4Oldest.lastAccessed →
       kv = ("1", c4Oldest)) ∧
    ∃ s m', getUserSession c4Store 42 86400001 86400001 = .ok (s, m') ∧
      s.requestCount = 0 ∧ s.conversationId = "" ∧ s.createdAt = 86400001 ∧
      alookup m'.sessions "1" = some c4Oldest := by
  have hlenfill : c4Fill.length = 9998 := by
    simp [c4Fill]
  refine ⟨?_, ?_, ?_, ?_⟩
  · simp only [c4Store, List.length_cons, hlenfill]
  · intro kv _
    simp only [c4Oldest]
    exact Nat.zero_le _
  · intro kv hkv heq
    simp only [c4Store, List.mem_cons] at hkv
    rcases hkv with rfl | rfl | hkv
    · simp only [c4Expired, c4Oldest] at heq
      exact absurd heq (by decide)
    · rfl
    · simp only [c4Fill, List.mem_map, List.mem_range] at hkv
      obtain ⟨i, _, rfl⟩ := hkv
      simp only [c4Oldest] at heq
      exact absurd heq (by decide)
  · have htos : (toString (42 : Nat) : String) = "42" := rfl
    have h42 : alookup c4Store.sessions "42" = some c4Expired := rfl
    have httl : c4Store.sessionTTL < 86400001 - c4Expired.createdAt := by decide
    have hdel : adelete c4Store.sessions "42" = ("1", c4Oldest) :: c4Fill := rfl
    have hres : c4Store.reservations.erase "42" = [] := rfl
    have hlen9999 : c4Mid.sessions.length = 9999 := by
      show (("1", c4Oldest) :: c4Fill).length = 9999
      simp [hlenfill]
    have hg1 : getUserSession c4Store 42 86400001 86400001 =
        .ok (createSession c4Mid 42 86400001 86400001) := by
      simp only [getUserSession, htos, h42, if_neg (by decide : ¬ (42 : Nat) = 0),
        if_pos httl, hdel, hres]
      rfl
    have hg2 : createSession c4Mid 42 86400001 86400001 =
        (c4New, { c4Mid with sessions := aset c4Mid.sessions "42" c4New }) := by
      simp only [createSession, htos, hlen9999]
      rw [if_neg (by decide : ¬ c4Mid.maxSessions ≤ 9999)]
      rfl
    have hfin : alookup (aset c4Mid.sessions "42" c4New) "1" = some c4Oldest := by
      rw [alookup_aset_ne _ _ _ _ (by decide : ("1" : String) ≠ "42")]
      rw [show c4Mid.sessions = ("1", c4Oldest) :: c4Fill from rfl]
      exact alookup_cons_self _ _ _
    refine ⟨c4New, { c4Mid with sessions := aset c4Mid.sessions "42" c4New },
      ?_, rfl, rfl, rfl, hfin⟩
    rw [hg1, hg2]

end Relay

namespace Relay

/-! ### C1: empty-token update -/

/-- Claim C1 (counterexample).  `updateUserSession` of src/api/webhook.js
does overwrite a previously stored conversation token with the empty
string: user 5's token is `"abc"` before the call and `""` after
`updateUserSession(5, '')`. -/
theorem C1_counterexample :
    alookup c1Store.sessions "5" = some c1Session ∧
    c1Session.conversationId = "abc" ∧
    alookup (updateUserSession c1Store 5 "" 10 10 10).sessions "5" =
      some { userId := 5, conversationId := "", createdAt := 0, lastAccessed := 10,
             requestCount := 2, reservationState := none } := by
  refine ⟨by decide, by decide, by decide⟩

/-- Claim C1 (amended).  The no-op-on-empty contract holds for
`updateSession` of src/unnamed/part_000, which returns the store unchanged
for an empty conversation id; in src/api/webhook.js, `updateUserSession`
called with an empty token instead overwrites the stored token with the
empty string (while also refreshing `lastAccessed` and bumping
`requestCount`); the pipeline there only calls it under a
`difyResponse?.conversation_id` truthiness guard. -/
theorem C1_amended :
    (∀ (store : Part0.P0Store) (uid : Option Nat) (now : Nat),
       Part0.updateSession store uid "" now = store) ∧
    (∀ (m : SessionManager) (userId : Nat) (now nowE nowU : Nat) (s : Session),
       userId ≠ 0 →
       alookup m.sessions (toString userId) = some s →
       now - s.createdAt ≤ m.sessionTTL →
       alookup (updateUserSession m userId "" now nowE nowU).sessions (toString userId) =
         some { s with conversationId := "", lastAccessed := nowU,
                       requestCount := s.requestCount + 1 }) := by
  constructor
  · intro store uid now
    cases uid with
    | none => rfl
    | some u => simp [Part0.updateSession]
  · intro m userId now nowE nowU s huid hlook httl
    have hnotexp : ¬ m.sessionTTL < now - s.createdAt := by omega
    simp only [updateUserSession, if_neg huid, getUserSession, hlook, if_neg hnotexp]
    exact alookup_aset_self _ _ _

/-- Witness for `C1_amended` at concrete inputs. -/
theorem C1_amended_witness :
    Part0.updateSession [("3", { conversationId := "x", lastAccess := 1 })] (some 3) "" 5 =
      [("3", { conversationId := "x", lastAccess := 1 })] ∧
    alookup (updateUserSession c1Store 5 "" 10 10 10).sessions "5" =
      some { userId := 5, conversationId := "", createdAt := 0, lastAccessed := 10,
             requestCount := 2, reservationState := none } := by
  have h := C1_amended
  refine ⟨h.1 _ (some 3) 5, ?_⟩
  have h2 := h.2 c1Store 5 10 10 10 c1Session (by decide) (by decide) (by decide)
  exact h2

/-! ### C2: the webhook handler acknowledges every processed update -/

/-- Claim C2 (confirmed).  For a POST request with a body, when the three
environment variables are present (so that the message-processing pipeline
runs at all), the handler responds 200 for every update kind and for every
outcome of the awaited message handling — including a rejection — and for
every outcome of the catch-branch fallback send. -/
theorem C2_handler_always_ok (env : HandlerEnv) (method : String)
    (body : Option UpdateKind) (u : UpdateKind)
    (handleOutcome fallbackSendOutcome : Except String Unit)
    (h1 : env.hasTelegramToken = true) (h2 : env.hasDifyUrl = true)
    (h3 : env.hasDifyToken = true) (hm : method = "POST") (hb : body = some u) :
    handler env method body handleOutcome fallbackSendOutcome = 200 := by
  subst hm hb
  cases u <;> cases handleOutcome <;> cases fallbackSendOutcome <;>
    simp [handler, h1, h2, h3]

/-- Witness for `C2_handler_always_ok`: a rejected `handleMessage` and a
failing fallback send still produce a 200 response. -/
theorem C2_witness :
    handler { hasTelegramToken := true, hasDifyUrl := true, hasDifyToken := true }
      "POST" (some .message) (.error "boom") (.error "boom again") = 200 :=
  C2_handler_always_ok _ _ _ .message _ _ rfl rfl rfl rfl rfl

/-! ### C3: sliding-window rate limiting -/

/-- Induction engine for `runCalls`: starting from a stored (already
pruned-stable) history `acc`, a burst of calls whose instants all lie
within one window of each other and of `acc` yields `true` while capacity
remains and `false` afterwards, and the final stored history is `acc`
extended by exactly the admitted instants. -/
theorem runCalls_aux (uid : Nat) (huid : uid ≠ 0) :
    ∀ (ts : List Nat) (m : RateMap) (acc : List Nat),
      (alookup m (toString uid)).getD [] = acc →
      acc.length ≤ rlMaxRequests →
      (∀ a ∈ acc, ∀ t ∈ ts, t - a < rlWindowSize) →
      ts.Pairwise (fun a b => b - a < rlWindowSize) →
      (runCalls m uid ts).1 =
        List.replicate (min ts.length (rlMaxRequests - acc.length)) true ++
          List.replicate (ts.length - (rlMaxRequests - acc.length)) false ∧
      (alookup (runCalls m uid ts).2 (toString uid)).getD [] =
        acc ++ ts.take (rlMaxRequests - acc.length) := by
  intro ts
  induction ts with
  | nil =>
    intro m acc hm _ _ _
    simp [runCalls, hm]
  | cons t rest ih =>
    intro m acc hm hlen hwin hpair
    have hfilter : acc.filter (fun a => decide (t - a < rlWindowSize)) = acc := by
      rw [List.filter_eq_self]
      intro a ha
      exact decide_eq_true (hwin a ha t (by simp))
    have hwin_rest : ∀ a ∈ acc, ∀ s ∈ rest, s - a < rlWindowSize := by
      intro a ha s hs
      exact hwin a ha s (by simp [hs])
    have hpair_head : ∀ s ∈ rest, s - t < rlWindowSize :=
      (List.pairwise_cons.mp hpair).1
    have hpair_rest : rest.Pairwise (fun a b => b - a < rlWindowSize) :=
      (List.pairwise_cons.mp hpair).2
    by_cases hfull : rlMaxRequests ≤ acc.length
    · -- ceiling reached: this call answers false, stores only the pruned list
      have hcap : rlMaxRequests - acc.length = 0 := by omega
      have hstep :
          isAllowed m (some uid) t = (false, aset m (toString uid) acc) := by
        simp [isAllowed, huid, hm, hfilter, hfull]
      have ihr := ih (aset m (toString uid) acc) acc
        (by simp [alookup_aset_self]) hlen hwin_rest hpair_rest
      refine ⟨?_, ?_⟩
      · simp only [runCalls, hstep]
        simp only [ihr.1, hcap]
        simp [List.replicate_succ]
      · simp only [runCalls, hstep]
        simp only [ihr.2, hcap]
        simp
    · -- capacity remains: this call answers true and appends its instant
      have hlt : acc.length < rlMaxRequests := by omega
      have hstep :
          isAllowed m (some uid) t = (true, aset m (toString uid) (acc ++ [t])) := by
        simp [isAllowed, huid, hm, hfilter, hfull]
      have hwin2 : ∀ a ∈ acc ++ [t], ∀ s ∈ rest, s - a < rlWindowSize := by
        intro a ha s hs
        rcases List.mem_append.mp ha with h | h
        · exact hwin_rest a h s hs
        · simp only [List.mem_singleton] at h
          subst h
          exact hpair_head s hs
      have ihr := ih (aset m (toString uid) (acc ++ [t])) (acc ++ [t])
        (by simp [alookup_aset_self]) (by simp; omega) hwin2 hpair_rest
      have hk1 : min (rest.length + 1) (rlMaxRequests - acc.length) =
          min rest.length (rlMaxRequests - (acc.length + 1)) + 1 := by omega
      have hk2 : rest.length + 1 - (rlMaxRequests - acc.length) =
          rest.length - (rlMaxRequests - (acc.length + 1)) := by omega
      have hk3 : rlMaxRequests - acc.length =
          (rlMaxRequests - (acc.length + 1)) + 1 := by omega
      refine ⟨?_, ?_⟩
      · simp only [runCalls, hstep]
        have := ihr.1
        simp only [List.length_append, List.length_singleton] at this
        simp only [this, List.length_cons, hk1, hk2, List.replicate_succ, List.cons_append]
      · simp only [runCalls, hstep]
        have := ihr.2
        simp only [List.length_append, List.length_singleton] at this
        rw [this, hk3, List.take_succ_cons, List.append_assoc]
        rfl

/-- Claim C3 (confirmed).  From a state holding no retained instants for a
non-zero user, a burst of calls whose instants lie pairwise within the
60-second window is admitted for the first 20 calls and refused from the
21st on; the refusing call stores only the pruned history — no new instant
is recorded (the final history is `ts.take 20` regardless of how many
further calls follow).  And a call with an absent userId returns `false`
and leaves the map untouched. -/
theorem C3_rateLimiter (m : RateMap) (uid : Nat) (ts : List Nat)
    (huid : uid ≠ 0)
    (hempty : (alookup m (toString uid)).getD [] = [])
    (hpair : ts.Pairwise (fun a b => b - a < rlWindowSize)) :
    (runCalls m uid ts).1 =
      List.replicate (min ts.length rlMaxRequests) true ++
        List.replicate (ts.length - rlMaxRequests) false ∧
    (alookup (runCalls m uid ts).2 (toString uid)).getD [] = ts.take rlMaxRequests ∧
    (∀ (m2 : RateMap) (now : Nat), isAllowed m2 none now = (false, m2)) := by
  have h := runCalls_aux uid huid ts m [] hempty (by simp) (by simp) hpair
  refine ⟨?_, ?_, fun m2 now => rfl⟩
  · simpa using h.1
  · simpa using h.2

/-- Witness for `C3_rateLimiter`: 21 calls of user 7 in the same
millisecond — twenty `true`s, then one `false`, with exactly the first 20
instants stored. -/
theorem C3_witness :
    (runCalls [] 7 (List.replicate 21 100)).1 =
      List.replicate 20 true ++ [false] ∧
    (alookup (runCalls [] 7 (List.replicate 21 100)).2 (toString 7)).getD [] =
      List.replicate 20 100 := by
  have h := C3_rateLimiter [] 7 (List.replicate 21 100) (by decide) (by decide)
    (by
      rw [List.pairwise_iff_forall_sublist]
      intro a b hsub
      have ha := hsub.subset
      have h1 : a = 100 := List.eq_of_mem_replicate (ha (by simp))
      have h2 : b = 100 := List.eq_of_mem_replicate (ha (by simp))
      subst h1 h2
      decide)
  refine ⟨?_, ?_⟩
  · rw [h.1]
    decide
  · rw [h.2.1]
    decide

/-! ### C5: processing the empty answer -/

/-- Claim C5 (counterexample).  `processDifyResponse("")` does not return
the fixed completion acknowledgment: the falsy-input guard
`!responseText || typeof responseText !== 'string'` catches the empty
string first and returns an empty `text`. -/
theorem C5_counterexample :
    (processDifyResponse (.jstr "")).text ≠ completionAck ∧
    (processDifyResponse (.jstr "")).text = "" := by
  refine ⟨by decide, by decide⟩

/-- Claim C5 (amended).  Processing the empty string returns empty clean
text with `hasImages = false` and rich markup disabled (the guard branch);
the fixed completion acknowledgment is produced only for a non-empty input
whose cleaned text and image list are both empty, e.g. a single space. -/
theorem C5_amended :
    processDifyResponse (.jstr "") =
      { text := "", imageUrls := [], hasImages := false, useMarkdown := false } ∧
    processDifyResponse (.jstr " ") =
      { text := completionAck, imageUrls := [], hasImages := false, useMarkdown := false } := by
  refine ⟨by decide, by decide⟩

/-! ### C6: markdown image extraction example -/

/-- Claim C6 (counterexample).  The claimed clean text `"Check this now"`
is wrong: replacing `![pic](https://x.com/a.png)` with the empty string
leaves both surrounding spaces, and only leading/trailing whitespace is
trimmed, so the result is `"Check this  now"` (two spaces). -/
theorem C6_counterexample :
    (processDifyResponse (.jstr "Check this ![pic](https://x.com/a.png) now")).text ≠
      "Check this now" := by
  decide

/-- Claim C6 (amended).  Processing
`"Check this ![pic](https://x.com/a.png) now"` yields exactly the one
extracted image url and the clean text `"Check this  now"` — the markup
reference replaced by the empty string, with its two neighbouring spaces
both kept. -/
theorem C6_amended :
    processDifyResponse (.jstr "Check this ![pic](https://x.com/a.png) now") =
      { text := "Check this  now", imageUrls := ["https://x.com/a.png"],
        hasImages := true, useMarkdown := true } := by
  decide

/-! ### C7: timeout handling of the AI call -/

/-- Claim C7 (counterexample).  In src/api/webhook.js, a timed-out AI call
does not produce a synthetic answer: with a complete configuration, both
retry attempts aborting makes `getDifyResponse` propagate the abort error
to its caller. -/
theorem C7_counterexample :
    getDifyResponse { apiUrl := some "https://dify.example", apiToken := some "tok" }
      [.abort, .abort] "hello" = .error "AbortError" := by
  rfl

/-- Claim C7 (amended).  In the queue-based variant (src/unnamed/part_002)
the claim holds: `callDifyAPI` answers a timeout with the synthetic
"took too long" message carrying the caller's conversation id unchanged,
and `processQueueItem`'s session update consequently leaves the session
store exactly as it was.  In src/api/webhook.js, by contrast, the timeout
error propagates out of `getDifyResponse` (`C7_counterexample`); there the
session is also untouched, because the update is only reached on success. -/
theorem C7_amended :
    (∀ conversationId : String,
       Part2.callDifyAPI .abort conversationId =
         .ok { answer := Part2.timeoutAnswer, conversation_id := conversationId }) ∧
    (∀ (store : Part2.KvSessions) (userId : Nat),
       Part2.processQueueItemSessions store userId .abort =
         (.ok { answer := Part2.timeoutAnswer,
                conversation_id := Part2.getSessionKV store userId }, store)) := by
  constructor
  · intro conversationId
    rfl
  · intro store userId
    simp only [Part2.processQueueItemSessions, Part2.callDifyAPI]
    rcases h : alookup store userId with _ | c
    · simp [Part2.getSessionKV, h]
    · by_cases hc : c = ""
      · simp [Part2.getSessionKV, h, jsOrEmpty, hc]
      · simp only [Part2.getSessionKV, h, jsOrEmpty, if_neg hc, Part2.updateSessionKV]
        rw [aset_eq_self store userId c h]

/-! ### C9: markdown validation -/

theorem count_dropWhile_of_neg (p : Char → Bool) (c : Char) (hc : p c = false) :
    ∀ l : List Char, (l.dropWhile p).count c = l.count c := by
  intro l
  induction l with
  | nil => rfl
  | cons a rest ih =>
    by_cases ha : p a
    · have hac : a ≠ c := by
        intro h
        subst h
        rw [hc] at ha
        exact Bool.noConfusion ha
      have hbeq : (a == c) = false := beq_eq_false_iff_ne.mpr hac
      simp [List.dropWhile_cons, ha, ih, List.count_cons, hbeq]
    · simp [List.dropWhile_cons, ha]

theorem count_jsTrim (c : Char) (hc : isJsSpace c = false) (l : List Char) :
    (jsTrim l).count c = l.count c := by
  unfold jsTrim
  rw [List.count_reverse, count_dropWhile_of_neg _ _ hc, List.count_reverse,
    count_dropWhile_of_neg _ _ hc]

theorem count_takeWhile_eq_zero (p : Char → Bool) (d : Char) (hd : p d = false)
    (l : List Char) : (l.takeWhile p).count d = 0 := by
  rw [List.count_eq_zero]
  intro hmem
  rw [List.mem_takeWhile_imp hmem] at hd
  exact Bool.noConfusion hd

theorem count_removeEmptyDelimsGo_parity (d : Char) (hd : isJsSpace d = false) :
    ∀ (fuel : Nat) (l : List Char), l.length ≤ fuel →
      ((removeEmptyDelimsGo d fuel l).count d) % 2 = (l.count d) % 2 := by
  intro fuel
  induction fuel with
  | zero => intro l _; rfl
  | succ n ih =>
    intro l hl
    cases l with
    | nil => rfl
    | cons c rest =>
      have hrest : rest.length ≤ n := by
        simp only [List.length_cons] at hl
        omega
      by_cases hcd : c = d
      · cases h : rest.dropWhile isJsSpace with
        | nil =>
          simp only [removeEmptyDelimsGo, if_pos hcd, h]
          have ih1 := ih rest hrest
          simp only [List.count_cons]
          omega
        | cons e rest2 =>
          by_cases hed : e = d
          · simp only [removeEmptyDelimsGo, if_pos hcd, h, if_pos hed]
            have hdl : (rest.dropWhile isJsSpace).length ≤ rest.length :=
              (List.dropWhile_sublist _).length_le
            rw [h] at hdl
            simp only [List.length_cons] at hdl
            have ih2 := ih rest2 (by omega)
            have hsplit := (List.takeWhile_append_dropWhile (p := isJsSpace) (l := rest)).symm
            rw [h] at hsplit
            have e1 : (c :: rest).count d = rest.count d + 1 := by
              simp [List.count_cons, hcd]
            have e2 : rest.count d =
                (rest.takeWhile isJsSpace).count d + (e :: rest2).count d := by
              conv_lhs => rw [hsplit]
              rw [List.count_append]
            have e3 : (rest.takeWhile isJsSpace).count d = 0 :=
              count_takeWhile_eq_zero _ _ hd _
            have e4 : (e :: rest2).count d = rest2.count d + 1 := by
              simp [List.count_cons, hed]
            omega
          · simp only [removeEmptyDelimsGo, if_pos hcd, h, if_neg hed]
            have ih1 := ih rest hrest
            simp only [List.count_cons]
            omega
      · simp only [removeEmptyDelimsGo, if_neg hcd]
        have ih1 := ih rest hrest
        simp only [List.count_cons]
        omega

theorem count_removeEmptyDelimsGo_other (d e : Char) (hde : d ≠ e)
    (he : isJsSpace e = false) :
    ∀ (fuel : Nat) (l : List Char), l.length ≤ fuel →
      (removeEmptyDelimsGo d fuel l).count e = l.count e := by
  intro fuel
  induction fuel with
  | zero => intro l _; rfl
  | succ n ih =>
    intro l hl
    cases l with
    | nil => rfl
    | cons c rest =>
      have hrest : rest.length ≤ n := by
        simp only [List.length_cons] at hl
        omega
      by_cases hcd : c = d
      · cases h : rest.dropWhile isJsSpace with
        | nil =>
          simp only [removeEmptyDelimsGo, if_pos hcd, h]
          have ih1 := ih rest hrest
          simp only [List.count_cons]
          omega
        | cons e2 rest2 =>
          by_cases hed : e2 = d
          · simp only [removeEmptyDelimsGo, if_pos hcd, h, if_pos hed]
            have hdl : (rest.dropWhile isJsSpace).length ≤ rest.length :=
              (List.dropWhile_sublist _).length_le
            rw [h] at hdl
            simp only [List.length_cons] at hdl
            have ih2 := ih rest2 (by omega)
            have hsplit := (List.takeWhile_append_dropWhile (p := isJsSpace) (l := rest)).symm
            rw [h] at hsplit
            have hce : (c == e) = false := by
              refine beq_eq_false_iff_ne.mpr ?_
              rw [hcd]
              exact hde
            have he2e : (e2 == e) = false := by
              refine beq_eq_false_iff_ne.mpr ?_
              rw [hed]
              exact hde
            have e1 : (c :: rest).count e = rest.count e := by
              simp [List.count_cons, hce]
            have e2' : rest.count e =
                (rest.takeWhile isJsSpace).count e + (e2 :: rest2).count e := by
              conv_lhs => rw [hsplit]
              rw [List.count_append]
            have e3 : (rest.takeWhile isJsSpace).count e = 0 :=
              count_takeWhile_eq_zero _ _ he _
            have e4 : (e2 :: rest2).count e = rest2.count e := by
              simp [List.count_cons, he2e]
            omega
          · simp only [removeEmptyDelimsGo, if_pos hcd, h, if_neg hed]
            have ih1 := ih rest hrest
            simp only [List.count_cons]
            omega
      · simp only [removeEmptyDelimsGo, if_neg hcd]
        have ih1 := ih rest hrest
        simp only [List.count_cons]
        omega

theorem count_removeEmptyDelims_parity (d : Char) (hd : isJsSpace d = false)
    (l : List Char) :
    ((removeEmptyDelims d l).count d) % 2 = (l.count d) % 2 :=
  count_removeEmptyDelimsGo_parity d hd l.length l le_rfl

theorem count_removeEmptyDelims_other (d e : Char) (hde : d ≠ e)
    (he : isJsSpace e = false) (l : List Char) :
    (removeEmptyDelims d l).count e = l.count e :=
  count_removeEmptyDelimsGo_other d e hde he l.length l le_rfl

theorem count_removeLastOcc_self (c : Char) (l : List Char) :
    (removeLastOcc c l).count c = l.count c - 1 := by
  unfold removeLastOcc
  rw [List.count_reverse, List.count_erase_self, List.count_reverse]

theorem count_removeLastOcc_other (c e : Char) (h : e ≠ c) (l : List Char) :
    (removeLastOcc c l).count e = l.count e := by
  unfold removeLastOcc
  rw [List.count_reverse, List.count_erase_of_ne h, List.count_reverse]

theorem count_fixOddDelim_self (c : Char) (l : List Char) :
    ((fixOddDelim c l).count c) % 2 = 0 := by
  unfold fixOddDelim
  by_cases hodd : (l.count c) % 2 ≠ 0
  · rw [if_pos hodd, count_removeLastOcc_self]
    omega
  · rw [if_neg hodd]
    omega

theorem count_fixOddDelim_other (c e : Char) (h : e ≠ c) (l : List Char) :
    (fixOddDelim c l).count e = l.count e := by
  unfold fixOddDelim
  by_cases hodd : (l.count c) % 2 ≠ 0
  · rw [if_pos hodd, count_removeLastOcc_other c e h]
  · rw [if_neg hodd]

/-- Claim C9 (confirmed).  The markdown validator is embedded as a total
function, so it returns a result on every input.  On the normal path it
reports `isValid = true` and the cleaned text contains an even number of
bold markers and an even number of code markers: an odd delimiter count is
repaired by dropping the delimiter's last occurrence, and the subsequent
empty-pair removals and the trim preserve both parities.  The `catch`
branch (embedded separately, since the `try` body cannot actually fail)
reports `isValid = false` with every `*`, backtick and `_` stripped. -/
theorem C9_validateMarkup (text : String) :
    (validateTelegramMarkdown text).1 = true ∧
    ((validateTelegramMarkdown text).2.data.count '*') % 2 = 0 ∧
    ((validateTelegramMarkdown text).2.data.count backtickChar) % 2 = 0 ∧
    (validateMarkdownCatch text).1 = false ∧
    (∀ c ∈ (validateMarkdownCatch text).2.data,
       c ≠ '*' ∧ c ≠ backtickChar ∧ c ≠ '_') := by
  have hstar : isJsSpace '*' = false := by decide
  have hbt : isJsSpace backtickChar = false := by decide
  have hne : backtickChar ≠ '*' := by decide
  have hne2 : ('*' : Char) ≠ backtickChar := by decide
  refine ⟨?_, ?_, ?_, rfl, ?_⟩
  · by_cases ht : text = "" <;> simp [validateTelegramMarkdown, ht]
  · by_cases ht : text = ""
    · simp [validateTelegramMarkdown, ht]
    · show ((validateTelegramMarkdown text).2.data.count '*') % 2 = 0
      simp only [validateTelegramMarkdown, if_neg ht]
      rw [count_jsTrim _ hstar, count_removeEmptyDelims_other _ _ hne hstar]
      rw [count_removeEmptyDelims_parity _ hstar]
      rw [count_fixOddDelim_other _ _ hne2]
      exact count_fixOddDelim_self _ _
  · by_cases ht : text = ""
    · simp [validateTelegramMarkdown, ht]
    · show ((validateTelegramMarkdown text).2.data.count backtickChar) % 2 = 0
      simp only [validateTelegramMarkdown, if_neg ht]
      rw [count_jsTrim _ hbt, count_removeEmptyDelims_parity _ hbt]
      rw [count_removeEmptyDelims_other _ _ hne2 hbt]
      exact count_fixOddDelim_self _ _
  · intro c hc
    simp only [validateMarkdownCatch, List.mem_filter] at hc
    have hp := hc.2
    simp only [Bool.not_eq_true', Bool.or_eq_false_iff, beq_eq_false_iff_ne] at hp
    exact ⟨hp.1.1, hp.1.2, hp.2⟩

/-! ### C8: no markup-disabled retry exists -/

/-- Claim C8 (amended).  For a text-only answer, when the platform rejects
the send (e.g. with a 400 "can't parse entities" markup error), the
delivery layer retries exactly once with *identical* parameters — rich
markup still enabled, because `retryOperation` re-runs the same operation
and never consults the `noRetry` flag — and after the second rejection the
outer catch sends the fixed technical-difficulty fallback text with no
parse mode.  The original content is never resent with markup disabled. -/
theorem C8_amended (msg : String) (chatId : Nat) (replyTo : Option Nat)
    (bc : Option String) (code1 code2 : Nat) (d1 d2 : String)
    (himg : (processDifyResponse (.jstr msg)).imageUrls = [])
    (htext : (processDifyResponse (.jstr msg)).text ≠ "")
    (hchat : chatId ≠ 0) :
    sendFormattedMessage
        { resps := [.apiErr code1 d1, .apiErr code2 d2, .ok], trace := [] }
        chatId msg replyTo bc =
      (.ok (),
       { resps := [],
         trace :=
           [{ method := "sendMessage", chatId := chatId,
              text := some (validateTelegramMarkdown (processDifyResponse (.jstr msg)).text).2,
              parseMode :=
                if (validateTelegramMarkdown (processDifyResponse (.jstr msg)).text).1 ∧
                    (processDifyResponse (.jstr msg)).useMarkdown
                then some "Markdown" else none,
              replyToMessageId := replyTo, businessConnectionId := bc,
              disableWebPagePreview := true },
            { method := "sendMessage", chatId := chatId,
              text := some (validateTelegramMarkdown (processDifyResponse (.jstr msg)).text).2,
              parseMode :=
                if (validateTelegramMarkdown (processDifyResponse (.jstr msg)).text).1 ∧
                    (processDifyResponse (.jstr msg)).useMarkdown
                then some "Markdown" else none,
              replyToMessageId := replyTo, businessConnectionId := bc,
              disableWebPagePreview := true },
            { method := "sendMessage", chatId := chatId,
              text := some deliveryFallback,
              replyToMessageId := replyTo, businessConnectionId := bc }] }) := by
  have hmsg : msg ≠ "" := by
    intro h
    rw [h] at htext
    exact htext rfl
  simp only [sendFormattedMessage, if_neg hmsg, if_neg hchat, himg, List.length_nil,
    lt_self_iff_false, and_false, if_false, if_pos htext]
  simp [doTgCall, runTgAttempts, tgAttempt]

/-- Claim C8 (counterexample).  Delivering `"*merhaba*"` while the platform
answers the first two calls with a 400 markup error: the trace shows the
same Markdown-enabled message sent twice, then the fixed fallback text — no
call in the trace carries the original content with markup disabled, so
the claimed markup-disabled retry does not happen. -/
theorem C8_counterexample :
    (sendFormattedMessage c8Store 5 "*merhaba*" (some 9) none).2.trace =
      [c8MarkdownCall, c8MarkdownCall, c8FallbackCall] ∧
    (∀ call ∈ (sendFormattedMessage c8Store 5 "*merhaba*" (some 9) none).2.trace,
       ¬(call.text = some "*merhaba*" ∧ call.parseMode = none)) := by
  refine ⟨by decide, by decide⟩

/-- Witness for `C8_amended` at the concrete scenario of
`C8_counterexample`. -/
theorem C8_witness :
    sendFormattedMessage c8Store 5 "*merhaba*" (some 9) none =
      (.ok (), { resps := [], trace := [c8MarkdownCall, c8MarkdownCall, c8FallbackCall] }) := by
  have h := C8_amended "*merhaba*" 5 (some 9) none 400 400
    "Bad Request: can't parse entities" "Bad Request: can't parse entities"
    (by decide) (by decide) (by decide)
  have hc : c8Store =
      { resps := [.apiErr 400 "Bad Request: can't parse entities",
                  .apiErr 400 "Bad Request: can't parse entities", .ok],
        trace := [] } := rfl
  rw [hc, h]
  decide

/-! ### C10: hasImages tracks the image list -/

/-- Claim C10 (confirmed).  `processDifyResponse` is embedded as a total
function over every JS value its guard distinguishes (null, undefined,
numbers, booleans, strings), so it returns on every input; and in every
returned record, `hasImages` is `true` exactly when `imageUrls` is
non-empty. -/
theorem C10_hasImages_iff (v : JsInput) :
    (processDifyResponse v).hasImages = true ↔ (processDifyResponse v).imageUrls ≠ [] := by
  cases v with
  | jstr s =>
    by_cases hs : s = ""
    · simp [processDifyResponse, hs]
    · simp only [processDifyResponse, if_neg hs]
      by_cases h1 : 0 < (extractMarkdownImages s).1.length
      · simp only [if_pos h1]
        simp [decide_eq_true_iff, List.length_pos]
      · simp only [if_neg h1]
        by_cases h2 : 0 < (extractMarkdownImages s).2.length
        · simp only [if_pos h2]
          simpa using List.length_pos.mp h2
        · simp [if_neg h2]
  | jnull => simp [processDifyResponse]
  | jundef => simp [processDifyResponse]
  | jnum n => simp [processDifyResponse]
  | jbool b => simp [processDifyResponse]

end Relay
